import Mathlib

/-!
# Verification of the Zephyr power-management subsystem (`subsys/pm/power.c`)

This file gives a shallow embedding of the PM engine and the device PM
layer, and proves (or refutes) the frozen claims about the specification.

Modelling conventions:
* C `errno`-style return codes are `Int` (negative on failure), with the
  numeric values used by the target libc.
* The global mutable state (`post_ops_done`, `z_power_state`, the notifier
  list, the device table and the suspended-device slots) is threaded
  explicitly through the functions as an `EngineSt` record.
* Observable side effects (notifier callbacks, SoC hooks, timer
  programming, statistics, scheduler/irq locking, device transitions) are
  collected in an event trace, in execution order.
* `__ASSERT` has its debug-build semantics: a failing assertion aborts the
  run, so the engine entry points return `Option` (`none` = assertion
  failure).  Assertions whose condition holds let execution continue.
* Device PM action callbacks are modelled as pure functions from the
  requested action to the returned code; a `none` callback is the C
  `NULL` callback of a device that does not participate in PM.
* Configuration: `CONFIG_PM_DEVICE` and `CONFIG_PM_STATS` are taken as
  enabled, tracing (`SYS_PORT_TRACING_*`) and logging as compiled out.
-/

/-! ## Error codes (newlib values used by Zephyr) -/

def EBUSY : Int := 16
def EINVAL : Int := 22
def ENOSYS : Int := 88
def EALREADY : Int := 120
def ENOTSUP : Int := 134

/-! ## CPU power states (`enum pm_state`) -/

/-- `enum pm_state`: ordered, `PM_STATE_ACTIVE` first, `PM_STATE_SOFT_OFF`
last. -/
inductive PMState
  | active
  | runtimeIdle
  | suspendToIdle
  | standby
  | suspendToRam
  | suspendToDisk
  | softOff
deriving DecidableEq, Repr

/-- Numeric value of the C enumerator. -/
def PMState.toNat : PMState → Nat
  | .active => 0
  | .runtimeIdle => 1
  | .suspendToIdle => 2
  | .standby => 3
  | .suspendToRam => 4
  | .suspendToDisk => 5
  | .softOff => 6

/-- `#define PM_STATES_LEN (1 + PM_STATE_SOFT_OFF - PM_STATE_ACTIVE)` -/
def PM_STATES_LEN : Nat := 1 + PMState.softOff.toNat - PMState.active.toNat

/-- `struct pm_state_info`. -/
structure PMStateInfo where
  state : PMState
  substate_id : Nat
  min_residency_us : Nat
  exit_latency_us : Nat
deriving DecidableEq, Repr

/-! ## Device PM data model (`struct pm_device`) -/

/-- `enum pm_device_state` (the states handled by this source). -/
inductive PMDeviceState
  | active
  | suspended
  | off
deriving DecidableEq, Repr

/-- `enum pm_device_action`. -/
inductive PMDeviceAction
  | suspend
  | resume
  | turnOff
deriving DecidableEq, Repr

/-- The atomic flags word of `struct pm_device`, one field per flag bit
(`PM_DEVICE_FLAG_BUSY`, `PM_DEVICE_FLAGS_WS_CAPABLE`,
`PM_DEVICE_FLAGS_WS_ENABLED`, `PM_DEVICE_FLAG_TRANSITIONING`). -/
structure PMDeviceFlags where
  busy : Bool
  wsCapable : Bool
  wsEnabled : Bool
  transitioning : Bool
deriving DecidableEq, Repr

/-- `struct pm_device`: per-device PM control block.  The action callback
is modelled as a pure function from the requested action to its return
code; `none` is the C `NULL` callback. -/
structure PMDevice where
  state : PMDeviceState
  flags : PMDeviceFlags
  action_cb : Option (PMDeviceAction → Int)

/-- Default device used to read the device table out of bounds (the C code
never does; all theorems keep indices in range). -/
def dfltDev : PMDevice :=
  { state := .active
    flags := ⟨false, false, false, false⟩
    action_cb := none }

/-- Read device `i` of the table (the C code indexes the static device
array; the default is never reached on the in-bounds indices the code
uses). -/
def devAt (l : List PMDevice) (i : Nat) : PMDevice :=
  l.getD i dfltDev

/-! ## Device PM operations (second translation unit of the source) -/

/-- `pm_device_is_busy`. -/
def pm_device_is_busy (pm : PMDevice) : Bool :=
  match pm.action_cb with
  | none => false
  | some _ => pm.flags.busy

/-- `pm_device_busy_set`. -/
def pm_device_busy_set (pm : PMDevice) : PMDevice :=
  match pm.action_cb with
  | none => pm
  | some _ => { pm with flags := { pm.flags with busy := true } }

/-- `pm_device_busy_clear`. -/
def pm_device_busy_clear (pm : PMDevice) : PMDevice :=
  match pm.action_cb with
  | none => pm
  | some _ => { pm with flags := { pm.flags with busy := false } }

/-- `pm_device_wakeup_is_enabled`. -/
def pm_device_wakeup_is_enabled (pm : PMDevice) : Bool :=
  match pm.action_cb with
  | none => false
  | some _ => pm.flags.wsEnabled

/-- `pm_device_wakeup_is_capable`. -/
def pm_device_wakeup_is_capable (pm : PMDevice) : Bool :=
  match pm.action_cb with
  | none => false
  | some _ => pm.flags.wsCapable

/-- `pm_device_wakeup_enable`.  The `atomic_cas` always succeeds in the
sequential model (the flags word is unchanged between the `atomic_get`
and the `atomic_cas`). -/
def pm_device_wakeup_enable (pm : PMDevice) (enable : Bool) :
    Bool × PMDevice :=
  match pm.action_cb with
  | none => (false, pm)
  | some _ =>
    if pm.flags.wsCapable = false then
      (false, pm)
    else
      (true, { pm with flags := { pm.flags with wsEnabled := enable } })

/-- `pm_device_state_get`.  The C function writes through an out
parameter; the model returns `none` when nothing is written. -/
def pm_device_state_get (pm : PMDevice) : Int × Option PMDeviceState :=
  match pm.action_cb with
  | none => (-ENOSYS, none)
  | some _ => (0, some pm.state)

/-- The tail of `pm_device_state_set` after the action has been computed:
invoke the callback; on negative return propagate it with the state not
updated, otherwise store the new state.  The third component records the
action the callback was invoked with. -/
def pmDeviceRunAction (pm : PMDevice) (cb : PMDeviceAction → Int)
    (state : PMDeviceState) (action : PMDeviceAction) :
    Int × PMDevice × Option PMDeviceAction :=
  let ret := cb action
  if ret < 0 then
    (ret, pm, some action)
  else
    (0, { pm with state := state }, some action)

/-- `pm_device_state_set`.  Returns the C return code, the updated control
block and the action the callback was invoked with (`none` when the
callback was not invoked). -/
def pm_device_state_set (pm : PMDevice) (state : PMDeviceState) :
    Int × PMDevice × Option PMDeviceAction :=
  match pm.action_cb with
  | none => (-ENOSYS, pm, none)
  | some cb =>
    if pm.flags.transitioning then
      (-EBUSY, pm, none)
    else
      match state with
      | .suspended =>
        if pm.state = .suspended then
          (-EALREADY, pm, none)
        else if pm.state = .off then
          (-ENOTSUP, pm, none)
        else
          pmDeviceRunAction pm cb state .suspend
      | .active =>
        if pm.state = .active then
          (-EALREADY, pm, none)
        else
          pmDeviceRunAction pm cb state .resume
      | .off =>
        if pm.state = .off then
          (-EALREADY, pm, none)
        else
          pmDeviceRunAction pm cb state .turnOff

/-- `pm_device_state_str`. -/
def pm_device_state_str : PMDeviceState → String
  | .active => "active"
  | .suspended => "suspended"
  | .off => "off"

/-! ## Observable events -/

/-- A notifier: identity of the node (modelling its address) plus whether
each of the two optional callbacks (`state_entry`, `state_exit`) is
non-null. -/
structure PMNotifier where
  id : Nat
  hasEntry : Bool
  hasExit : Bool
deriving DecidableEq, Repr

/-- One observable side effect of the engine, in execution order:
notifier callbacks, scheduler/irq lock operations, the statistics timer
and update, the SoC hooks, timer (re)programming, writes to the two
globals `z_power_state` / `post_ops_done`, and device transition calls
(`pm_device_state_set` invocations with their index, target, return code
and the action the callback ran with). -/
inductive PMEvent
  | notify (id : Nat) (entering : Bool) (s : PMState)
  | irqLock
  | irqUnlockEv
  | schedLock
  | schedUnlock
  | startTimer
  | stopTimer
  | statsUpdate (s : PMState)
  | socStateSet (info : PMStateInfo)
  | socExitPostOps (info : PMStateInfo)
  | setTimeoutExpiry (t : Int) (idle : Bool)
  | publishState (info : PMStateInfo)
  | setPostOpsDone (b : Bool)
  | devCall (i : Nat) (target : PMDeviceState) (ret : Int)
      (act : Option PMDeviceAction)
deriving DecidableEq, Repr

/-- The indices of the device transition calls recorded in a trace, in
order. -/
def callIndices (tr : List PMEvent) : List Nat :=
  tr.filterMap fun e =>
    match e with
    | .devCall i _ _ _ => some i
    | _ => none

/-- Whether an event is an on-entry notifier callback invocation. -/
def isEntryNotify : PMEvent → Bool
  | .notify _ true _ => true
  | _ => false

/-! ## Device suspension scheduler state -/

/-- The device-side global state: the static device table (in registration
order; `dev->pm` control blocks) together with the suspended-device slots
`__pm_device_slots_start[0 .. num_susp)`, kept as the list of device
indices in suspension order (`num_susp` is its length). -/
structure DevSt where
  devs : List PMDevice
  slots : List Nat

/-- The loop body of `_pm_devices`, iterating over the remaining device
indices (the full walk starts from index `devc - 1` and counts down).
Returns the C return code, the updated device-side state and the trace of
`pm_device_state_set` calls. -/
def pmDevicesLoop (target : PMDeviceState) :
    List Nat → DevSt → Int × DevSt × List PMEvent
  | [], st => (0, st, [])
  | i :: rest, st =>
    let d := devAt st.devs i
    if pm_device_is_busy d || pm_device_wakeup_is_enabled d then
      pmDevicesLoop target rest st
    else
      let out := pm_device_state_set d target
      let ret := out.1
      let st' : DevSt := { st with devs := st.devs.set i out.2.1 }
      let ev := PMEvent.devCall i target ret out.2.2
      if ret = -ENOSYS ∨ ret = -ENOTSUP ∨ ret = -EALREADY then
        let r := pmDevicesLoop target rest st'
        (r.1, r.2.1, ev :: r.2.2)
      else if ret < 0 then
        (ret, st', [ev])
      else
        let st'' : DevSt := { st' with slots := st'.slots ++ [i] }
        let r := pmDevicesLoop target rest st''
        (r.1, r.2.1, ev :: r.2.2)

/-- `_pm_devices`: reset `num_susp`, then walk the static device table
from the last registered device down to the first. -/
def _pm_devices (target : PMDeviceState) (st : DevSt) :
    Int × DevSt × List PMEvent :=
  pmDevicesLoop target (List.range st.devs.length).reverse
    { st with slots := [] }

/-- `pm_suspend_devices`. -/
def pm_suspend_devices (st : DevSt) : Int × DevSt × List PMEvent :=
  _pm_devices .suspended st

/-- The loop of `pm_resume_devices`, iterating over the slot contents from
`num_susp - 1` down to `0` (the argument list is already reversed),
ignoring the return codes. -/
def pmResumeLoop : List Nat → DevSt → DevSt × List PMEvent
  | [], st => (st, [])
  | i :: rest, st =>
    let d := devAt st.devs i
    let out := pm_device_state_set d .active
    let st' : DevSt := { st with devs := st.devs.set i out.2.1 }
    let r := pmResumeLoop rest st'
    (r.1, PMEvent.devCall i .active out.1 out.2.2 :: r.2)

/-- `pm_resume_devices`: drain the slots from tail to head, transitioning
each recorded device back to `ACTIVE`, then reset `num_susp` to `0`. -/
def pm_resume_devices (st : DevSt) : DevSt × List PMEvent :=
  let r := pmResumeLoop st.slots.reverse st
  ({ r.1 with slots := [] }, r.2)

/-! ## CPU suspension engine state and environment -/

/-- The engine's global mutable state: `post_ops_done`, `z_power_state`,
the notifier list `pm_notifiers` (in registration order) and the
device-side state. -/
structure EngineSt where
  postOpsDone : Bool
  zPowerState : PMStateInfo
  notifiers : List PMNotifier
  dev : DevSt

/-- The engine's external collaborators: the PM policy
(`pm_policy_next_state`), whether the two weakly bound SoC hooks are
present, and the configured `k_us_to_ticks_ceil32` conversion. -/
structure PMEnv where
  policy : Int → PMStateInfo
  hasStateSetHook : Bool
  hasExitPostOpsHook : Bool
  usToTicksCeil : Nat → Nat

/-- `#define K_TICKS_FOREVER ((k_ticks_t) -1)` -/
def K_TICKS_FOREVER : Int := -1

/-- The initial values of the engine's statics: `post_ops_done = 1`,
`z_power_state` zero-initialised (state `PM_STATE_ACTIVE`), an empty
notifier list and empty suspended-device slots. -/
def pmInitSt (devs : List PMDevice) : EngineSt :=
  { postOpsDone := true
    zPowerState := ⟨.active, 0, 0, 0⟩
    notifiers := []
    dev := ⟨devs, []⟩ }

/-! ## Notifier registry and broadcast -/

/-- `pm_state_notify`: walk the notifier list in order and invoke the
entry or exit callback as directed, skipping null callbacks.  Returns the
trace of callback invocations. -/
def pm_state_notify (ns : List PMNotifier) (s : PMState)
    (entering : Bool) : List PMEvent :=
  ns.filterMap fun n =>
    if (if entering then n.hasEntry else n.hasExit) then
      some (.notify n.id entering s)
    else
      none

/-- `pm_notifier_register`: `sys_slist_append`. -/
def pm_notifier_register (st : EngineSt) (n : PMNotifier) : EngineSt :=
  { st with notifiers := st.notifiers ++ [n] }

/-- `sys_slist_find_and_remove`: remove the first node with the given
identity, reporting whether it was found. -/
def slistFindAndRemove (id : Nat) :
    List PMNotifier → Bool × List PMNotifier
  | [] => (false, [])
  | x :: xs =>
    if x.id = id then
      (true, xs)
    else
      let r := slistFindAndRemove id xs
      (r.1, x :: r.2)

/-- `pm_notifier_unregister`: `-EINVAL` when the node is not linked,
`0` when it was found and removed. -/
def pm_notifier_unregister (st : EngineSt) (n : PMNotifier) :
    Int × EngineSt :=
  let r := slistFindAndRemove n.id st.notifiers
  if r.1 then (0, { st with notifiers := r.2 }) else (-EINVAL, st)

/-! ## CPU suspension engine -/

/-- `pm_state_set`: call the weak SoC hook when present, otherwise do
nothing. -/
def pm_state_set (env : PMEnv) (info : PMStateInfo) : List PMEvent :=
  if env.hasStateSetHook then [.socStateSet info] else []

/-- `exit_pos_ops` (sic): call the weak SoC hook when present, otherwise
unmask interrupts (`irq_unlock(0)`). -/
def exit_pos_ops (env : PMEnv) (info : PMStateInfo) : List PMEvent :=
  if env.hasExitPostOpsHook then [.socExitPostOps info] else [.irqUnlockEv]

/-- `pm_system_resume`: when `post_ops_done` is still clear, set it, run
the SoC exit post-ops and broadcast the on-exit notifications; otherwise
do nothing. -/
def pm_system_resume (env : PMEnv) (st : EngineSt) :
    EngineSt × List PMEvent :=
  if st.postOpsDone then
    (st, [])
  else
    ({ st with postOpsDone := true },
     PMEvent.setPostOpsDone true ::
       (exit_pos_ops env st.zPowerState ++
        pm_state_notify st.notifiers st.zPowerState.state false))

/-- `pm_power_state_force`: assert the state tag is in range; return
silently on an `ACTIVE` descriptor; otherwise mask interrupts, publish
the descriptor, clear `post_ops_done`, broadcast entry, lock the
scheduler, time and invoke the SoC hook, run `pm_system_resume` and
unlock the scheduler. -/
def pm_power_state_force (env : PMEnv) (st : EngineSt)
    (info : PMStateInfo) : Option (EngineSt × List PMEvent) :=
  if info.state.toNat < PM_STATES_LEN then
    if info.state = .active then
      some (st, [])
    else
      let st1 : EngineSt :=
        { st with zPowerState := info, postOpsDone := false }
      let tr1 : List PMEvent :=
        [.irqLock, .publishState info, .setPostOpsDone false] ++
        pm_state_notify st.notifiers info.state true ++
        [.schedLock, .startTimer] ++
        pm_state_set env info ++
        [.stopTimer]
      let r := pm_system_resume env st1
      some (r.1, tr1 ++ r.2 ++ [.schedUnlock])
  else
    none

/-- `_handle_device_abort`: resume the devices suspended so far, set the
current transition state back to `ACTIVE` and return `ACTIVE`. -/
def _handle_device_abort (st : EngineSt) :
    PMState × EngineSt × List PMEvent :=
  let r := pm_resume_devices st.dev
  let info' := { st.zPowerState with state := PMState.active }
  (.active,
   { st with dev := r.1, zPowerState := info' },
   r.2 ++ [.publishState info'])

/-- The tail of `pm_system_suspend` from `k_sched_lock()` on: the actual
power-state entry, device resumption when devices were suspended,
statistics update, `pm_system_resume` and scheduler unlock. -/
def pmSuspendEnter (env : PMEnv) (st : EngineSt)
    (shouldResumeDevices : Bool) : PMState × EngineSt × List PMEvent :=
  let trEnter : List PMEvent :=
    [.schedLock, .startTimer] ++
    pm_state_notify st.notifiers st.zPowerState.state true ++
    pm_state_set env st.zPowerState ++
    [.stopTimer]
  let devPart : DevSt × List PMEvent :=
    if shouldResumeDevices then pm_resume_devices st.dev
    else (st.dev, [])
  let st1 : EngineSt := { st with dev := devPart.1 }
  let r := pm_system_resume env st1
  (st1.zPowerState.state,
   r.1,
   trEnter ++ devPart.2 ++ [.statsUpdate st1.zPowerState.state] ++
     r.2 ++ [.schedUnlock])

/-- `pm_system_suspend`: query the policy; return `ACTIVE` immediately
when it chose `ACTIVE`; clear `post_ops_done`; when `ticks` is not
`K_TICKS_FOREVER`, assert `min_residency_us >= exit_latency_us` and arm
the tick early by the exit latency; for states deeper than
`RUNTIME_IDLE`, suspend the devices and abort the cycle when that fails;
finally enter the state and run the wake sequence.  `none` is a failed
assertion. -/
def pm_system_suspend (env : PMEnv) (st : EngineSt) (ticks : Int) :
    Option (PMState × EngineSt × List PMEvent) :=
  let info := env.policy ticks
  let st0 : EngineSt := { st with zPowerState := info }
  let tr0 : List PMEvent := [.publishState info]
  if info.state = .active then
    some (.active, st0, tr0)
  else
    let st1 : EngineSt := { st0 with postOpsDone := false }
    let tr1 := tr0 ++ [PMEvent.setPostOpsDone false]
    if ticks ≠ K_TICKS_FOREVER ∧
        ¬ info.min_residency_us ≥ info.exit_latency_us then
      none
    else
      let tr2 :=
        if ticks ≠ K_TICKS_FOREVER then
          tr1 ++ [PMEvent.setTimeoutExpiry
            (ticks - (env.usToTicksCeil info.exit_latency_us : Int)) true]
        else
          tr1
      if info.state ≠ PMState.runtimeIdle then
        let s := pm_suspend_devices st1.dev
        let st2 : EngineSt := { st1 with dev := s.2.1 }
        if s.1 ≠ 0 then
          let a := _handle_device_abort st2
          some (a.1, a.2.1, tr2 ++ s.2.2 ++ a.2.2)
        else
          let e := pmSuspendEnter env st2 true
          some (e.1, e.2.1, tr2 ++ s.2.2 ++ e.2.2)
      else
        let e := pmSuspendEnter env st1 false
        some (e.1, e.2.1, tr2 ++ e.2.2)

/-- `pm_power_state_next_get`. -/
def pm_power_state_next_get (st : EngineSt) : PMStateInfo :=
  st.zPowerState

/-! ## Specification of `suspend_all` (spec.md §4.C) -/

/-- The action emitted for a requested target state, per the spec's
transition table (the action depends only on the target). -/
def pmDeviceActionFor : PMDeviceState → PMDeviceAction
  | .suspended => .suspend
  | .active => .resume
  | .off => .turnOff

/-- Specification of `suspend_all`, following spec.md §4.C word for word:
walk the remaining device indices (the caller passes the registration
order reversed); skip a device that is BUSY or wake-enabled; call the
device's transition to `SUSPENDED`; `NOT_IMPLEMENTED`, `UNSUPPORTED` and
`ALREADY` are a benign skip; any other negative code stops the iteration
and is returned; each successfully suspended device is appended to the
slots.  All devices are read from the original table `devs`; the result
is the return code, the per-device updates in visit order, the slot
contents and the transition-call trace. -/
def suspendAllSpecGo (devs : List PMDevice) :
    List Nat → Int × List (Nat × PMDevice) × List Nat × List PMEvent
  | [] => (0, [], [], [])
  | i :: rest =>
    let d := devAt devs i
    if pm_device_is_busy d || pm_device_wakeup_is_enabled d then
      suspendAllSpecGo devs rest
    else
      let out := pm_device_state_set d .suspended
      let ev := PMEvent.devCall i .suspended out.1 out.2.2
      if out.1 = -ENOSYS ∨ out.1 = -ENOTSUP ∨ out.1 = -EALREADY then
        let r := suspendAllSpecGo devs rest
        (r.1, (i, out.2.1) :: r.2.1, r.2.2.1, ev :: r.2.2.2)
      else if out.1 < 0 then
        (out.1, [(i, out.2.1)], [], [ev])
      else
        let r := suspendAllSpecGo devs rest
        (r.1, (i, out.2.1) :: r.2.1, i :: r.2.2.1, ev :: r.2.2.2)

/-- Specification of `suspend_all` on the full table: visit all registered
devices in reverse registration order. -/
def suspend_all_spec (devs : List PMDevice) :
    Int × List (Nat × PMDevice) × List Nat × List PMEvent :=
  suspendAllSpecGo devs (List.range devs.length).reverse

/-- Apply a list of per-index device updates to the table. -/
def applyUpdates (devs : List PMDevice) :
    List (Nat × PMDevice) → List PMDevice
  | [] => devs
  | (i, d) :: rest => applyUpdates (devs.set i d) rest

/-! ## Predicates used by the claim statements -/

/-- A device control block whose resume transition cannot fail: it has an
action callback, the callback succeeds on `RESUME`, and the device is not
mid-transition. -/
def okResumeDev (d : PMDevice) : Prop :=
  (∃ cb, d.action_cb = some cb ∧ 0 ≤ cb .resume) ∧
    d.flags.transitioning = false

/-- The condition under which `pm_system_suspend` takes the
device-abort path: the policy chose a state deeper than `RUNTIME_IDLE`
and `pm_suspend_devices` fails. -/
def deviceAbortTaken (env : PMEnv) (st : EngineSt) (ticks : Int) : Prop :=
  (env.policy ticks).state ≠ .active ∧
  (env.policy ticks).state ≠ .runtimeIdle ∧
  (pm_suspend_devices st.dev).1 ≠ 0

/-! ## Concrete fixtures for witnesses and counterexamples -/

/-- All device flag bits clear. -/
def flagsClear : PMDeviceFlags := ⟨false, false, false, false⟩

/-- A device that does not participate in PM (null action callback) with
every flag bit set and a non-`ACTIVE` state. -/
def pmNullDev : PMDevice :=
  { state := .suspended, flags := ⟨true, true, true, true⟩, action_cb := none }

/-- An action callback that always succeeds. -/
def cbOk : PMDeviceAction → Int := fun _ => 0

/-- An action callback that always fails with `-5` (`-EIO`). -/
def cbFail : PMDeviceAction → Int := fun _ => -5

/-- An action callback that suspends fine but fails to resume
(`-5`, i.e. `-EIO`). -/
def cbResumeFail : PMDeviceAction → Int := fun a =>
  match a with
  | .resume => -5
  | _ => 0

/-- A well-behaved active device. -/
def devOk : PMDevice :=
  { state := .active, flags := flagsClear, action_cb := some cbOk }

/-- An active device whose action callback always fails. -/
def devFail : PMDevice :=
  { state := .active, flags := flagsClear, action_cb := some cbFail }

/-- An active device that suspends but refuses to resume. -/
def devResumeFail : PMDevice :=
  { state := .active, flags := flagsClear, action_cb := some cbResumeFail }

/-- A trivial environment: the policy always answers `ACTIVE`, both SoC
hooks are present, one tick per microsecond. -/
def envTriv : PMEnv :=
  { policy := fun _ => ⟨.active, 0, 0, 0⟩
    hasStateSetHook := true
    hasExitPostOpsHook := true
    usToTicksCeil := fun us => us }

/-- An environment whose policy always answers `STANDBY` with a sane
residency/latency pair. -/
def envStandby : PMEnv :=
  { policy := fun _ => ⟨.standby, 0, 1000, 100⟩
    hasStateSetHook := true
    hasExitPostOpsHook := true
    usToTicksCeil := fun us => us }

/-- An environment whose policy answers `RUNTIME_IDLE` with
`min_residency_us < exit_latency_us` (a descriptor violating the
residency contract), no SoC hooks. -/
def envBadResidency : PMEnv :=
  { policy := fun _ => ⟨.runtimeIdle, 0, 0, 100⟩
    hasStateSetHook := false
    hasExitPostOpsHook := false
    usToTicksCeil := fun us => us }

/-- The scenario-S2 device table: devices A, B, C registered in that
order; C accepts `SUSPEND`, B fails with a non-benign error, A would
accept but is never reached. -/
def devTableS2 : List PMDevice := [devOk, devFail, devOk]

/-- A notifier with both callbacks non-null. -/
def notifBoth : PMNotifier := ⟨1, true, true⟩

/-- A notifier with only the entry callback non-null. -/
def notifEntryOnly : PMNotifier := ⟨2, true, false⟩

/-- A well-behaved suspended device. -/
def devSusp : PMDevice :=
  { state := .suspended, flags := flagsClear, action_cb := some cbOk }

/-- A suspended device that refuses to resume (`-5` on `RESUME`). -/
def devSuspFail : PMDevice :=
  { state := .suspended, flags := flagsClear, action_cb := some cbResumeFail }

/-! ## Helper lemmas -/

theorem devAt_set_same (l : List PMDevice) (i : Nat) (a : PMDevice)
    (h : i < l.length) : devAt (l.set i a) i = a := by
  simp [devAt, List.getD_eq_getElem?_getD, List.getElem?_set_self',
    List.getElem?_eq_getElem h]

theorem devAt_set_diff (l : List PMDevice) (i j : Nat) (a : PMDevice)
    (h : i ≠ j) : devAt (l.set i a) j = devAt l j := by
  rw [devAt, devAt, List.getD_eq_getElem?_getD, List.getD_eq_getElem?_getD,
    List.getElem?_set_ne h]

theorem pm_device_state_set_preserves (d : PMDevice)
    (target : PMDeviceState) :
    ((pm_device_state_set d target).2.1).action_cb = d.action_cb ∧
      ((pm_device_state_set d target).2.1).flags = d.flags := by
  rcases d with ⟨s, fl, cb⟩
  cases cb with
  | none => simp [pm_device_state_set]
  | some f =>
    by_cases htr : fl.transitioning
    · simp [pm_device_state_set, htr]
    · cases target <;> cases s <;>
        simp [pm_device_state_set, pmDeviceRunAction, htr] <;>
        split <;> simp

theorem suspendAllSpecGo_congr :
    ∀ (is : List Nat) (d1 d2 : List PMDevice),
      (∀ i ∈ is, devAt d1 i = devAt d2 i) →
      suspendAllSpecGo d1 is = suspendAllSpecGo d2 is := by
  intro is
  induction is with
  | nil => intro d1 d2 _; rfl
  | cons i rest ih =>
    intro d1 d2 h
    have hi : devAt d1 i = devAt d2 i := h i (by simp)
    have hrest : ∀ j ∈ rest, devAt d1 j = devAt d2 j :=
      fun j hj => h j (by simp [hj])
    simp only [suspendAllSpecGo, hi, ih d1 d2 hrest]

theorem pmDevicesLoop_eq_spec :
    ∀ (is : List Nat) (st : DevSt), is.Nodup →
      pmDevicesLoop .suspended is st =
        ((suspendAllSpecGo st.devs is).1,
         ⟨applyUpdates st.devs (suspendAllSpecGo st.devs is).2.1,
          st.slots ++ (suspendAllSpecGo st.devs is).2.2.1⟩,
         (suspendAllSpecGo st.devs is).2.2.2) := by
  intro is
  induction is with
  | nil =>
    intro st _
    simp [pmDevicesLoop, suspendAllSpecGo, applyUpdates]
  | cons i rest ih =>
    intro st hnd
    obtain ⟨hi, hrest⟩ := List.nodup_cons.mp hnd
    have hcongr :
        ∀ d', suspendAllSpecGo (st.devs.set i d') rest =
          suspendAllSpecGo st.devs rest := by
      intro d'
      apply suspendAllSpecGo_congr
      intro j hj
      exact devAt_set_diff st.devs i j d' (fun he => hi (he ▸ hj))
    by_cases hskip :
        (pm_device_is_busy (devAt st.devs i) ||
          pm_device_wakeup_is_enabled (devAt st.devs i)) = true
    · simp only [pmDevicesLoop, suspendAllSpecGo, hskip, if_pos]
      exact ih st hrest
    · simp only [pmDevicesLoop, suspendAllSpecGo, hskip]
      simp only [Bool.false_eq_true, if_false]
      by_cases hben :
          (pm_device_state_set (devAt st.devs i) .suspended).1 = -ENOSYS ∨
            (pm_device_state_set (devAt st.devs i) .suspended).1 =
              -ENOTSUP ∨
            (pm_device_state_set (devAt st.devs i) .suspended).1 = -EALREADY
      · simp only [hben, if_pos,
          ih { st with
            devs := st.devs.set i
              (pm_device_state_set (devAt st.devs i) .suspended).2.1 }
            hrest, hcongr, applyUpdates]
      · by_cases hneg :
            (pm_device_state_set (devAt st.devs i) .suspended).1 < 0
        · simp [hben, hneg, applyUpdates]
        · simp only [hben, hneg, if_false,
            ih { st with
              devs := st.devs.set i
                (pm_device_state_set (devAt st.devs i) .suspended).2.1,
              slots := st.slots ++ [i] } hrest,
            hcongr, applyUpdates]
          simp

/-- C2: `pm_suspend_devices` visits the registered devices in reverse
registration order; it skips any device that is BUSY or wake-enabled; a
transition returning `-ENOSYS`, `-ENOTSUP` or `-EALREADY` is a benign
skip; any other negative return stops the iteration and is returned;
every device whose transition to `SUSPENDED` succeeds is appended, in
suspension order, to the suspended-device slots.  Stated as a refinement:
the code equals `suspend_all_spec`, the word-for-word rendering of the
spec's `suspend_all` contract (reverse-order walk, skip rule, benign
codes, stop-on-error, slot contents, and the resulting per-device
updates). -/
theorem pm_suspend_devices_meets_spec (st : DevSt) :
    pm_suspend_devices st =
      ((suspend_all_spec st.devs).1,
       ⟨applyUpdates st.devs (suspend_all_spec st.devs).2.1,
        (suspend_all_spec st.devs).2.2.1⟩,
       (suspend_all_spec st.devs).2.2.2) := by
  have h := pmDevicesLoop_eq_spec ((List.range st.devs.length).reverse)
      ⟨st.devs, []⟩ (by simp [List.nodup_range])
  simpa [pm_suspend_devices, _pm_devices, suspend_all_spec] using h

theorem callIndices_cons_devCall (i : Nat) (t : PMDeviceState) (r : Int)
    (a : Option PMDeviceAction) (tr : List PMEvent) :
    callIndices (PMEvent.devCall i t r a :: tr) = i :: callIndices tr := by
  simp [callIndices]

theorem callIndices_append (tr1 tr2 : List PMEvent) :
    callIndices (tr1 ++ tr2) = callIndices tr1 ++ callIndices tr2 := by
  simp [callIndices]

theorem devAt_lt_length_of_cb (l : List PMDevice) (i : Nat)
    (h : (devAt l i).action_cb ≠ none) : i < l.length := by
  by_contra h'
  push_neg at h'
  have hd : devAt l i = dfltDev := by
    simp [devAt, List.getD_eq_getElem?_getD, List.getElem?_eq_none h']
  exact h (by simp [hd, dfltDev])

theorem okResumeDev_preserved (d d' : PMDevice)
    (hcb : d'.action_cb = d.action_cb) (hfl : d'.flags = d.flags)
    (h : okResumeDev d) : okResumeDev d' := by
  obtain ⟨⟨cb, hc, hr⟩, htr⟩ := h
  exact ⟨⟨cb, hcb ▸ hc, hr⟩, hfl ▸ htr⟩

theorem resume_step_state (d : PMDevice) (h : okResumeDev d) :
    ((pm_device_state_set d .active).2.1).state = .active := by
  obtain ⟨⟨cb, hc, hr⟩, htr⟩ := h
  rcases d with ⟨s, fl, cbo⟩
  simp only at hc htr
  subst hc
  cases s <;>
    simp [pm_device_state_set, htr, pmDeviceRunAction, Int.not_lt.mpr hr]

theorem pmResumeLoop_calls :
    ∀ (js : List Nat) (st : DevSt),
      callIndices (pmResumeLoop js st).2 = js ∧
        (pmResumeLoop js st).1.slots = st.slots ∧
        ∀ e ∈ (pmResumeLoop js st).2,
          ∃ i r a, e = PMEvent.devCall i .active r a := by
  intro js
  induction js with
  | nil => intro st; simp [pmResumeLoop, callIndices]
  | cons i rest ih =>
    intro st
    obtain ⟨h1, h2, h3⟩ := ih
      { st with
        devs := st.devs.set i
          (pm_device_state_set (devAt st.devs i) .active).2.1 }
    refine ⟨?_, h2, ?_⟩
    · simp only [pmResumeLoop, callIndices_cons_devCall, h1]
    · intro e he
      simp only [pmResumeLoop, List.mem_cons] at he
      rcases he with he | he
      · exact ⟨i, _, _, he⟩
      · exact h3 e he

theorem pmResumeLoop_untouched :
    ∀ (js : List Nat) (st : DevSt) (j : Nat), j ∉ js →
      devAt (pmResumeLoop js st).1.devs j = devAt st.devs j := by
  intro js
  induction js with
  | nil => intro st j _; rfl
  | cons i rest ih =>
    intro st j hj
    have hji : j ≠ i := fun he => hj (by simp [he])
    have hjr : j ∉ rest := fun hm => hj (by simp [hm])
    simp only [pmResumeLoop]
    rw [ih _ j hjr]
    exact devAt_set_diff st.devs i j _ (fun he => hji he.symm)

theorem resume_fail_step (d : PMDevice) (hs : d.state = .suspended)
    (hf : ∃ cb, d.action_cb = some cb ∧ cb .resume < 0) :
    (pm_device_state_set d .active).2.1 = d := by
  obtain ⟨cb, hcb, hlt⟩ := hf
  rcases d with ⟨s, fl, cbo⟩
  simp only at hs hcb
  subst hs
  subst hcb
  by_cases htr : fl.transitioning
  · simp [pm_device_state_set, htr]
  · simp [pm_device_state_set, htr, pmDeviceRunAction, hlt]

theorem pmResumeLoop_ok_single :
    ∀ (js : List Nat) (st : DevSt) (i : Nat),
      okResumeDev (devAt st.devs i) →
      ((devAt (pmResumeLoop js st).1.devs i).action_cb =
          (devAt st.devs i).action_cb ∧
        (devAt (pmResumeLoop js st).1.devs i).flags =
          (devAt st.devs i).flags) ∧
      ((i ∈ js ∨ (devAt st.devs i).state = .active) →
        (devAt (pmResumeLoop js st).1.devs i).state = .active) := by
  intro js
  induction js with
  | nil =>
    intro st i _
    refine ⟨⟨rfl, rfl⟩, ?_⟩
    rintro (h | h)
    · simp at h
    · exact h
  | cons j rest ih =>
    intro st i hok
    by_cases hji : j = i
    · subst hji
      have hbound : j < st.devs.length := by
        apply devAt_lt_length_of_cb
        obtain ⟨⟨cb, hc, _⟩, _⟩ := hok
        simp [hc]
      have hset :
          devAt (st.devs.set j
            (pm_device_state_set (devAt st.devs j) .active).2.1) j =
            (pm_device_state_set (devAt st.devs j) .active).2.1 :=
        devAt_set_same st.devs j _ hbound
      obtain ⟨hcb, hfl⟩ :=
        pm_device_state_set_preserves (devAt st.devs j) .active
      have hok' : okResumeDev (devAt (st.devs.set j
          (pm_device_state_set (devAt st.devs j) .active).2.1) j) := by
        rw [hset]
        exact okResumeDev_preserved _ _ hcb hfl hok
      obtain ⟨⟨ihcb, ihfl⟩, ihact⟩ := ih
        { st with
          devs := st.devs.set j
            (pm_device_state_set (devAt st.devs j) .active).2.1 } j hok'
      refine ⟨⟨?_, ?_⟩, ?_⟩
      · simpa [pmResumeLoop, hset, hcb] using ihcb
      · simpa [pmResumeLoop, hset, hfl] using ihfl
      · intro _
        have : (devAt (st.devs.set j
            (pm_device_state_set (devAt st.devs j) .active).2.1) j).state =
            .active := by
          rw [hset]
          exact resume_step_state _ hok
        simpa [pmResumeLoop] using ihact (Or.inr this)
    · have hsame :
          devAt (st.devs.set j
            (pm_device_state_set (devAt st.devs j) .active).2.1) i =
            devAt st.devs i :=
        devAt_set_diff st.devs j i _ hji
      obtain ⟨⟨ihcb, ihfl⟩, ihact⟩ := ih
        { st with
          devs := st.devs.set j
            (pm_device_state_set (devAt st.devs j) .active).2.1 } i
        (by rw [hsame]; exact hok)
      refine ⟨⟨?_, ?_⟩, ?_⟩
      · simpa [pmResumeLoop, hsame] using ihcb
      · simpa [pmResumeLoop, hsame] using ihfl
      · rintro (hm | ha)
        · rcases List.mem_cons.mp hm with he | hm'
          · exact absurd he.symm hji
          · simpa [pmResumeLoop] using ihact (Or.inl hm')
        · simpa [pmResumeLoop] using ihact (Or.inr (hsame.symm ▸ ha))

theorem pmResumeLoop_fail_untouched :
    ∀ (js : List Nat) (st : DevSt) (i : Nat),
      (devAt st.devs i).state = .suspended →
      (∃ cb, (devAt st.devs i).action_cb = some cb ∧ cb .resume < 0) →
      devAt (pmResumeLoop js st).1.devs i = devAt st.devs i := by
  intro js
  induction js with
  | nil => intro st i _ _; rfl
  | cons j rest ih =>
    intro st i hs hf
    have hsame :
        devAt (st.devs.set j
          (pm_device_state_set (devAt st.devs j) .active).2.1) i =
          devAt st.devs i := by
      by_cases hji : j = i
      · subst hji
        have hbound : j < st.devs.length := by
          apply devAt_lt_length_of_cb
          obtain ⟨cb, hc, _⟩ := hf
          simp [hc]
        rw [devAt_set_same st.devs j _ hbound, resume_fail_step _ hs hf]
      · exact devAt_set_diff st.devs j i _ hji
    have := ih
      { st with
        devs := st.devs.set j
          (pm_device_state_set (devAt st.devs j) .active).2.1 } i
      (by rw [hsame]; exact hs) (by rw [hsame]; exact hf)
    simp only [pmResumeLoop]
    rw [this, hsame]

/-- C3 counterexample: the claim "after pm_resume_devices returns …
every device that was in the slots is in the ACTIVE state" is false,
because resume errors are ignored.  A single device whose callback
suspends fine but fails `RESUME` with `-5` is suspended into the slots
by `pm_suspend_devices`; after `pm_resume_devices` it is still
`SUSPENDED` (while `num_suspended` is reset to 0). -/
theorem pm_resume_devices_active_cex :
    (pm_suspend_devices ⟨[devResumeFail], []⟩).2.1.slots = [0] ∧
    (pm_resume_devices
      (pm_suspend_devices ⟨[devResumeFail], []⟩).2.1).1.slots = [] ∧
    (devAt (pm_resume_devices
        (pm_suspend_devices ⟨[devResumeFail], []⟩).2.1).1.devs 0).state =
      PMDeviceState.suspended :=
  ⟨rfl, rfl, rfl⟩

/-- C3 (amended): `pm_resume_devices` invokes a transition back to
`ACTIVE` for the devices recorded in the suspended-device slots in
exactly the reverse of the order in which they were suspended, ignoring
transition errors, and after it returns `num_suspended` equals 0 (both
unconditional); every slotted device whose resume transition cannot
fail (callback present and succeeding on `RESUME`, not mid-transition)
is in the `ACTIVE` state; and a slotted `SUSPENDED` device whose resume
callback fails remains `SUSPENDED`.  The last two guards are
per-device, so mixed tables of succeeding and failing devices are
covered. -/
theorem pm_resume_devices_amended (st : DevSt) :
    callIndices (pm_resume_devices st).2 = st.slots.reverse ∧
    (∀ e ∈ (pm_resume_devices st).2,
      ∃ i r a, e = PMEvent.devCall i .active r a) ∧
    (pm_resume_devices st).1.slots = [] ∧
    (∀ i ∈ st.slots, okResumeDev (devAt st.devs i) →
      (devAt (pm_resume_devices st).1.devs i).state = .active) ∧
    (∀ i ∈ st.slots, (devAt st.devs i).state = .suspended →
      (∃ cb, (devAt st.devs i).action_cb = some cb ∧ cb .resume < 0) →
      (devAt (pm_resume_devices st).1.devs i).state = .suspended) := by
  obtain ⟨h1, h2, h3⟩ := pmResumeLoop_calls st.slots.reverse st
  refine ⟨?_, ?_, ?_, ?_, ?_⟩
  · simpa [pm_resume_devices] using h1
  · intro e he
    exact h3 e (by simpa [pm_resume_devices] using he)
  · simp [pm_resume_devices]
  · intro i hi hok
    have := (pmResumeLoop_ok_single st.slots.reverse st i hok).2
      (Or.inl (List.mem_reverse.mpr hi))
    simpa [pm_resume_devices] using this
  · intro i hi hs hf
    have heq := pmResumeLoop_fail_untouched st.slots.reverse st i hs hf
    simp only [pm_resume_devices]
    rw [heq]
    exact hs

/-- Witness for the amended C3 theorem at a mixed concrete table: slot 0
holds a device whose resume succeeds (ends `ACTIVE`), slot 1 a
`SUSPENDED` device whose resume callback fails (stays `SUSPENDED`);
both `ACTIVE` transitions are invoked, in reverse slot order, and
`num_suspended` is reset. -/
theorem pm_resume_devices_amended_witness :
    callIndices (pm_resume_devices ⟨[devSusp, devSuspFail], [0, 1]⟩).2 =
      List.reverse [0, 1] ∧
    (pm_resume_devices ⟨[devSusp, devSuspFail], [0, 1]⟩).1.slots = [] ∧
    (devAt (pm_resume_devices
      ⟨[devSusp, devSuspFail], [0, 1]⟩).1.devs 0).state = .active ∧
    (devAt (pm_resume_devices
      ⟨[devSusp, devSuspFail], [0, 1]⟩).1.devs 1).state = .suspended := by
  have h := pm_resume_devices_amended ⟨[devSusp, devSuspFail], [0, 1]⟩
  refine ⟨h.1, h.2.2.1, ?_, ?_⟩
  · exact h.2.2.2.1 0 (by simp) ⟨⟨cbOk, rfl, by decide⟩, rfl⟩
  · exact h.2.2.2.2 1 (by simp) rfl ⟨cbResumeFail, rfl, by decide⟩

theorem runAction_cases (pm : PMDevice) (cb : PMDeviceAction → Int)
    (state : PMDeviceState) (action : PMDeviceAction) :
    (cb action < 0 →
      pmDeviceRunAction pm cb state action = (cb action, pm, some action)) ∧
    (0 ≤ cb action →
      pmDeviceRunAction pm cb state action =
        (0, { pm with state := state }, some action)) := by
  constructor
  · intro h
    simp [pmDeviceRunAction, h]
  · intro h
    simp [pmDeviceRunAction, Int.not_lt.mpr h]

/-- C7: `pm_device_state_set` implements the transition table: null
callback → `-ENOSYS`; `TRANSITIONING` set → `-EBUSY`; request for the
current state → `-EALREADY` with no callback invocation and the state
untouched; `OFF → SUSPENDED` → `-ENOTSUP`; otherwise the callback runs
with the action from the table, a negative return is propagated
unchanged with the stored state not updated, and on success the new
state is stored. -/
theorem pm_device_state_set_table (pm : PMDevice)
    (target : PMDeviceState) :
    (pm.action_cb = none →
      pm_device_state_set pm target = (-ENOSYS, pm, none)) ∧
    (pm.action_cb ≠ none → pm.flags.transitioning = true →
      pm_device_state_set pm target = (-EBUSY, pm, none)) ∧
    (pm.action_cb ≠ none → pm.flags.transitioning = false →
      target = pm.state →
      pm_device_state_set pm target = (-EALREADY, pm, none)) ∧
    (pm.action_cb ≠ none → pm.flags.transitioning = false →
      pm.state = .off → target = .suspended →
      pm_device_state_set pm target = (-ENOTSUP, pm, none)) ∧
    (∀ cb, pm.action_cb = some cb → pm.flags.transitioning = false →
      target ≠ pm.state → ¬(pm.state = .off ∧ target = .suspended) →
      (cb (pmDeviceActionFor target) < 0 →
        pm_device_state_set pm target =
          (cb (pmDeviceActionFor target), pm,
            some (pmDeviceActionFor target))) ∧
      (0 ≤ cb (pmDeviceActionFor target) →
        pm_device_state_set pm target =
          (0, { pm with state := target },
            some (pmDeviceActionFor target)))) := by
  rcases pm with ⟨s, fl, cbo⟩
  refine ⟨?_, ?_, ?_, ?_, ?_⟩
  · intro h
    simp only at h
    subst h
    rfl
  · intro hne htr
    cases cbo with
    | none => exact absurd rfl hne
    | some f =>
      simp only at htr
      simp [pm_device_state_set, htr]
  · intro hne htr heq
    cases cbo with
    | none => exact absurd rfl hne
    | some f =>
      simp only at htr heq
      rw [heq]
      cases s <;> simp [pm_device_state_set, htr]
  · intro hne htr hs ht
    cases cbo with
    | none => exact absurd rfl hne
    | some f =>
      simp only at htr hs ht
      subst hs
      subst ht
      simp [pm_device_state_set, htr]
  · intro cb hcb htr hne hnot
    simp only at hcb htr hne hnot
    subst hcb
    have hred : pm_device_state_set ⟨s, fl, some cb⟩ target =
        pmDeviceRunAction ⟨s, fl, some cb⟩ cb target
          (pmDeviceActionFor target) := by
      cases target <;> cases s <;>
        simp_all [pm_device_state_set, pmDeviceActionFor]
    rw [hred]
    exact runAction_cases _ cb _ _

/-- Witness for the C7 theorem: the `ALREADY` row at a concrete device
(`state_set(d, d.state)` returns `-EALREADY`, invokes no callback and
leaves the state untouched). -/
theorem pm_device_state_set_table_witness :
    pm_device_state_set devSusp .suspended = (-EALREADY, devSusp, none) :=
  (pm_device_state_set_table devSusp .suspended).2.2.1
    (by simp [devSusp]) rfl rfl

/-- C10: for a device whose PM action callback is null, the busy and
wake-up predicates all answer `false`, `pm_device_wakeup_enable` fails
without touching the flags, `busy_set`/`busy_clear` leave the control
block unchanged, and `pm_device_state_get` returns `-ENOSYS` without
writing the output state. -/
theorem pm_device_null_cb_ops (pm : PMDevice) (enable : Bool)
    (h : pm.action_cb = none) :
    pm_device_is_busy pm = false ∧
    pm_device_wakeup_is_enabled pm = false ∧
    pm_device_wakeup_is_capable pm = false ∧
    pm_device_wakeup_enable pm enable = (false, pm) ∧
    pm_device_busy_set pm = pm ∧
    pm_device_busy_clear pm = pm ∧
    pm_device_state_get pm = (-ENOSYS, none) := by
  rcases pm with ⟨s, fl, cbo⟩
  simp only at h
  subst h
  simp [pm_device_is_busy, pm_device_wakeup_is_enabled,
    pm_device_wakeup_is_capable, pm_device_wakeup_enable,
    pm_device_busy_set, pm_device_busy_clear, pm_device_state_get]

/-- Witness for the C10 theorem at a concrete non-participating device
with every flag bit set. -/
theorem pm_device_null_cb_ops_witness :
    pm_device_is_busy pmNullDev = false ∧
    pm_device_wakeup_is_enabled pmNullDev = false ∧
    pm_device_wakeup_is_capable pmNullDev = false ∧
    pm_device_wakeup_enable pmNullDev true = (false, pmNullDev) ∧
    pm_device_busy_set pmNullDev = pmNullDev ∧
    pm_device_busy_clear pmNullDev = pmNullDev ∧
    pm_device_state_get pmNullDev = (-ENOSYS, none) :=
  pm_device_null_cb_ops pmNullDev true rfl

theorem mem_pm_state_notify (ns : List PMNotifier) (n : PMNotifier)
    (s : PMState) (b : Bool) (hm : n ∈ ns)
    (hcb : (if b then n.hasEntry else n.hasExit) = true) :
    PMEvent.notify n.id b s ∈ pm_state_notify ns s b := by
  simp only [pm_state_notify, List.mem_filterMap]
  exact ⟨n, hm, by simp [hcb]⟩

theorem notify_id_mem (ns : List PMNotifier) (s : PMState) (b : Bool)
    (i : Nat) (h : PMEvent.notify i b s ∈ pm_state_notify ns s b) :
    i ∈ ns.map PMNotifier.id := by
  simp only [pm_state_notify, List.mem_filterMap] at h
  obtain ⟨n, hm, he⟩ := h
  by_cases hc : (if b then n.hasEntry else n.hasExit) = true
  · rw [if_pos hc] at he
    have : n.id = i := by
      injection he with he'
      injection he'
    exact this ▸ List.mem_map_of_mem PMNotifier.id hm
  · rw [if_neg hc] at he
    exact absurd he (by simp)

theorem findAndRemove_found (id : Nat) :
    ∀ ns : List PMNotifier,
      (slistFindAndRemove id ns).1 = true ↔ id ∈ ns.map PMNotifier.id := by
  intro ns
  induction ns with
  | nil => simp [slistFindAndRemove]
  | cons x xs ih =>
    by_cases hx : x.id = id
    · simp [slistFindAndRemove, hx]
    · simp only [slistFindAndRemove, hx, if_false, List.map_cons,
        List.mem_cons]
      rw [ih]
      constructor
      · exact fun h => Or.inr h
      · rintro (h | h)
        · exact absurd h.symm hx
        · exact h

theorem findAndRemove_removes (id : Nat) :
    ∀ ns : List PMNotifier, (ns.map PMNotifier.id).Nodup →
      id ∉ ((slistFindAndRemove id ns).2.map PMNotifier.id) := by
  intro ns
  induction ns with
  | nil => simp [slistFindAndRemove]
  | cons x xs ih =>
    intro hnd
    rw [List.map_cons] at hnd
    obtain ⟨hx, hxs⟩ := List.nodup_cons.mp hnd
    by_cases hid : x.id = id
    · simp only [slistFindAndRemove, hid, if_pos]
      exact hid ▸ hx
    · simp only [slistFindAndRemove, hid, if_false, List.map_cons,
        List.mem_cons]
      rintro (h | h)
      · exact hid h.symm
      · exact ih hxs h

/-- C8: after `pm_notifier_register(n)` the notifier is linked and every
broadcast while it is linked invokes its matching non-null callback;
`pm_notifier_unregister` returns `0` exactly when the notifier is linked
(and `-EINVAL` otherwise); and after a successful unregister a broadcast
no longer invokes the notifier's callbacks (given the linked notifier
identities are distinct, as they are for distinct C nodes). -/
theorem pm_notifier_registry_claims (st : EngineSt) (n : PMNotifier)
    (s : PMState) (b : Bool) :
    (n ∈ (pm_notifier_register st n).notifiers) ∧
    (∀ st' : EngineSt, n ∈ st'.notifiers →
      (if b then n.hasEntry else n.hasExit) = true →
      PMEvent.notify n.id b s ∈ pm_state_notify st'.notifiers s b) ∧
    ((pm_notifier_unregister st n).1 =
      if n.id ∈ st.notifiers.map PMNotifier.id then 0 else -EINVAL) ∧
    ((st.notifiers.map PMNotifier.id).Nodup →
      (pm_notifier_unregister st n).1 = 0 →
      PMEvent.notify n.id b s ∉
        pm_state_notify (pm_notifier_unregister st n).2.notifiers s b) := by
  refine ⟨?_, ?_, ?_, ?_⟩
  · simp [pm_notifier_register]
  · intro st' hm hcb
    exact mem_pm_state_notify st'.notifiers n s b hm hcb
  · by_cases hf : (slistFindAndRemove n.id st.notifiers).1 = true
    · rw [pm_notifier_unregister]
      simp [hf, (findAndRemove_found n.id st.notifiers).mp hf]
    · rw [pm_notifier_unregister]
      have : n.id ∉ st.notifiers.map PMNotifier.id := fun hm =>
        hf ((findAndRemove_found n.id st.notifiers).mpr hm)
      simp [hf, this]
  · intro hnd hz
    by_cases hf : (slistFindAndRemove n.id st.notifiers).1 = true
    · intro hmem
      have hid := notify_id_mem _ s b n.id hmem
      rw [pm_notifier_unregister] at hid
      simp only [hf, if_pos] at hid
      exact findAndRemove_removes n.id st.notifiers hnd hid
    · rw [pm_notifier_unregister] at hz
      simp [hf, EINVAL] at hz

/-- Witness for the C8 theorem: a concrete registered notifier is
broadcast to, its unregistration succeeds, and it is no longer broadcast
to afterwards. -/
theorem pm_notifier_registry_claims_witness :
    (PMEvent.notify 1 true .standby ∈
      pm_state_notify [notifBoth] .standby true) ∧
    ((pm_notifier_unregister
      { pmInitSt [] with notifiers := [notifBoth] } notifBoth).1 = 0) ∧
    (PMEvent.notify 1 true .standby ∉
      pm_state_notify
        (pm_notifier_unregister
          { pmInitSt [] with notifiers := [notifBoth] }
          notifBoth).2.notifiers .standby true) := by
  have h := pm_notifier_registry_claims
    { pmInitSt [] with notifiers := [notifBoth] } notifBoth .standby true
  refine ⟨?_, ?_, ?_⟩
  · exact h.2.1 { pmInitSt [] with notifiers := [notifBoth] }
      (by simp) rfl
  · simpa [notifBoth] using h.2.2.1
  · exact h.2.2.2 (by simp) rfl

/-- C9: when the policy returns an `ACTIVE` descriptor,
`pm_system_suspend` returns `ACTIVE` immediately; the only effect is
overwriting `z_power_state` with that `ACTIVE` descriptor (so the
current-transition tag is `ACTIVE`: no transition is performed), and
there is no broadcast, no timer reprogramming, no statistics update, no
device transition and no SoC hook invocation; `post_ops_done`, the
notifier list and the device state are untouched. -/
theorem pm_system_suspend_active_early_return (env : PMEnv)
    (st : EngineSt) (ticks : Int)
    (h : (env.policy ticks).state = .active) :
    pm_system_suspend env st ticks =
      some (.active, { st with zPowerState := env.policy ticks },
        [.publishState (env.policy ticks)]) ∧
    ({ st with zPowerState := env.policy ticks } : EngineSt).postOpsDone =
      st.postOpsDone ∧
    ({ st with zPowerState := env.policy ticks } : EngineSt).notifiers =
      st.notifiers ∧
    ({ st with zPowerState := env.policy ticks } : EngineSt).dev =
      st.dev ∧
    ({ st with zPowerState :=
        env.policy ticks } : EngineSt).zPowerState.state = .active ∧
    (∀ e ∈ [PMEvent.publishState (env.policy ticks)],
      isEntryNotify e = false ∧
      (∀ id s', e ≠ PMEvent.notify id false s') ∧
      (∀ t idl, e ≠ PMEvent.setTimeoutExpiry t idl) ∧
      (∀ s', e ≠ PMEvent.statsUpdate s') ∧
      (∀ i t r a, e ≠ PMEvent.devCall i t r a) ∧
      (∀ inf, e ≠ PMEvent.socStateSet inf)) := by
  refine ⟨?_, rfl, rfl, rfl, h, ?_⟩
  · simp [pm_system_suspend, h]
  · intro e he
    rw [List.mem_singleton] at he
    subst he
    simp [isEntryNotify]

/-- Witness for the C9 theorem: the trivial always-`ACTIVE` policy. -/
theorem pm_system_suspend_active_early_return_witness :
    pm_system_suspend envTriv (pmInitSt []) 5 =
      some (.active,
        { pmInitSt [] with zPowerState := envTriv.policy 5 },
        [.publishState (envTriv.policy 5)]) ∧
    ({ pmInitSt [] with zPowerState := envTriv.policy 5 } :
      EngineSt).zPowerState.state = .active :=
  have h := pm_system_suspend_active_early_return envTriv (pmInitSt []) 5
    rfl
  ⟨h.1, h.2.2.2.2.1⟩

/-- C5 counterexample: `pm_power_state_force` does NOT assert that its
descriptor is not `ACTIVE` — an `ACTIVE` descriptor is accepted
silently: the call returns normally (no assertion failure, i.e. not
`none`) with no observable effect and the state unchanged. -/
theorem pm_power_state_force_active_cex :
    pm_power_state_force envTriv (pmInitSt []) ⟨.active, 0, 0, 0⟩ =
      some (pmInitSt [], []) :=
  rfl

/-- C5 (amended): `pm_power_state_force` asserts only that the
descriptor's state tag is valid; an `ACTIVE` descriptor is silently
ignored (immediate return, no effect); for a valid non-`ACTIVE`
descriptor it masks interrupts, publishes the descriptor as the current
transition, arms the pending post-ops (`post_ops_done = 0`), broadcasts
the entry notification, locks the scheduler, times and invokes the SoC
hook, runs `pm_system_resume` (post-ops, exit broadcast) and unlocks the
scheduler, in exactly that order. -/
theorem pm_power_state_force_amended (env : PMEnv) (st : EngineSt)
    (info : PMStateInfo) (h : info.state ≠ .active) :
    pm_power_state_force env st info =
      some ({ st with zPowerState := info, postOpsDone := true },
        [.irqLock, .publishState info, .setPostOpsDone false] ++
        pm_state_notify st.notifiers info.state true ++
        [.schedLock, .startTimer] ++
        pm_state_set env info ++
        [.stopTimer] ++
        ([.setPostOpsDone true] ++ exit_pos_ops env info ++
          pm_state_notify st.notifiers info.state false) ++
        [.schedUnlock]) := by
  have hv : info.state.toNat < PM_STATES_LEN := by
    cases info.state <;> decide
  simp [pm_power_state_force, hv, h, pm_system_resume]

/-- Witness for the amended C5 theorem at a concrete `SOFT_OFF`
descriptor with one registered notifier. -/
theorem pm_power_state_force_amended_witness :
    pm_power_state_force envTriv
      { pmInitSt [] with notifiers := [notifBoth] } ⟨.softOff, 1, 2, 3⟩ =
      some (⟨true, ⟨.softOff, 1, 2, 3⟩, [notifBoth], ⟨[], []⟩⟩,
        [.irqLock, .publishState ⟨.softOff, 1, 2, 3⟩,
          .setPostOpsDone false] ++
        pm_state_notify [notifBoth] .softOff true ++
        [.schedLock, .startTimer] ++
        pm_state_set envTriv ⟨.softOff, 1, 2, 3⟩ ++
        [.stopTimer] ++
        ([.setPostOpsDone true] ++
          exit_pos_ops envTriv ⟨.softOff, 1, 2, 3⟩ ++
          pm_state_notify [notifBoth] .softOff false) ++
        [.schedUnlock]) :=
  pm_power_state_force_amended envTriv
    { pmInitSt [] with notifiers := [notifBoth] } ⟨.softOff, 1, 2, 3⟩
    (by decide)

/-- C6 counterexample: with `ticks = K_TICKS_FOREVER` the residency
assertion is bypassed — the engine accepts a `RUNTIME_IDLE` descriptor
with `min_residency_us < exit_latency_us` and completes a full cycle
(no assertion failure). -/
theorem pm_system_suspend_residency_cex :
    (envBadResidency.policy K_TICKS_FOREVER).min_residency_us <
      (envBadResidency.policy K_TICKS_FOREVER).exit_latency_us ∧
    pm_system_suspend envBadResidency (pmInitSt []) K_TICKS_FOREVER =
      some (.runtimeIdle,
        ⟨true, ⟨.runtimeIdle, 0, 0, 100⟩, [], ⟨[], []⟩⟩,
        [.publishState ⟨.runtimeIdle, 0, 0, 100⟩, .setPostOpsDone false,
          .schedLock, .startTimer, .stopTimer,
          .statsUpdate .runtimeIdle, .setPostOpsDone true, .irqUnlockEv,
          .schedUnlock]) :=
  ⟨by decide, rfl⟩

/-- C6 (amended): for every `ticks` value other than the
`K_TICKS_FOREVER` sentinel, every descriptor with which the engine
proceeds to a suspend cycle (policy answered non-`ACTIVE` and the run
did not abort on the assertion) satisfies
`min_residency_us ≥ exit_latency_us`; with `ticks = K_TICKS_FOREVER`
the condition is not checked (see the counterexample). -/
theorem pm_system_suspend_residency_guard (env : PMEnv) (st : EngineSt)
    (ticks : Int) (h1 : ticks ≠ K_TICKS_FOREVER)
    (h2 : (env.policy ticks).state ≠ .active)
    (h3 : (pm_system_suspend env st ticks).isSome = true) :
    (env.policy ticks).exit_latency_us ≤
      (env.policy ticks).min_residency_us := by
  by_contra hlt
  have hcond : ticks ≠ K_TICKS_FOREVER ∧
      ¬ (env.policy ticks).min_residency_us ≥
        (env.policy ticks).exit_latency_us := ⟨h1, hlt⟩
  rw [pm_system_suspend] at h3
  simp [h2, hcond] at h3

/-- Witness for the amended C6 theorem: a sane `STANDBY` descriptor with
a finite deadline. -/
theorem pm_system_suspend_residency_guard_witness :
    (envStandby.policy 10).exit_latency_us ≤
      (envStandby.policy 10).min_residency_us :=
  pm_system_suspend_residency_guard envStandby (pmInitSt []) 10
    (by decide) (by decide) rfl

/-- C4 counterexample: a suspend cycle aborted by a device-suspension
failure returns with `post_ops_done` still `0`: the pending flag is left
armed after the call completes, contradicting "false again after every
completed cycle of pm_system_suspend". -/
theorem post_ops_pending_after_abort_cex :
    pm_system_suspend envStandby (pmInitSt [devFail]) K_TICKS_FOREVER =
      some (.active,
        ⟨false, ⟨.active, 0, 1000, 100⟩, [], ⟨[devFail], []⟩⟩,
        [.publishState ⟨.standby, 0, 1000, 100⟩, .setPostOpsDone false,
          .devCall 0 .suspended (-5) (some .suspend),
          .publishState ⟨.active, 0, 1000, 100⟩]) ∧
    (⟨false, ⟨.active, 0, 1000, 100⟩, [], ⟨[devFail], []⟩⟩ :
      EngineSt).postOpsDone = false :=
  ⟨rfl, rfl⟩

/-- C4 (amended): `post_ops_pending` (`!post_ops_done`) is false
initially; it is false again after every completed
`pm_power_state_force` cycle and after every completed
`pm_system_suspend` cycle that did not take the device-abort path
(after an aborted cycle it remains armed — see the counterexample); and
`pm_system_resume` is idempotent: a second call before the next suspend
does nothing (no post-ops, no exit broadcast). -/
theorem post_ops_pending_invariant :
    (∀ ds : List PMDevice, (pmInitSt ds).postOpsDone = true) ∧
    (∀ (env : PMEnv) (st : EngineSt) (info : PMStateInfo),
      st.postOpsDone = true →
      Option.all (fun r => r.1.postOpsDone)
        (pm_power_state_force env st info) = true) ∧
    (∀ (env : PMEnv) (st : EngineSt) (ticks : Int),
      st.postOpsDone = true → ¬ deviceAbortTaken env st ticks →
      Option.all (fun r => r.2.1.postOpsDone)
        (pm_system_suspend env st ticks) = true) ∧
    (∀ (env : PMEnv) (st : EngineSt),
      pm_system_resume env (pm_system_resume env st).1 =
        ((pm_system_resume env st).1, [])) := by
  refine ⟨fun _ => rfl, ?_, ?_, ?_⟩
  · intro env st info hpo
    have hv : info.state.toNat < PM_STATES_LEN := by
      cases info.state <;> decide
    by_cases ha : info.state = .active
    · rw [ha] at hv
      simp [pm_power_state_force, ha, hv, hpo]
    · simp [pm_power_state_force, hv, ha, pm_system_resume]
  · intro env st ticks hpo habort
    by_cases h1 : (env.policy ticks).state = .active
    · simp [pm_system_suspend, h1, hpo]
    · by_cases hguard : ticks ≠ K_TICKS_FOREVER ∧
          ¬ (env.policy ticks).min_residency_us ≥
            (env.policy ticks).exit_latency_us
      · simp [pm_system_suspend, h1, hguard]
      · have hg' : ¬ (¬ ticks = K_TICKS_FOREVER ∧
            (env.policy ticks).min_residency_us <
              (env.policy ticks).exit_latency_us) :=
          fun hc => hguard ⟨hc.1, Nat.not_le.mpr hc.2⟩
        by_cases hidle : (env.policy ticks).state = PMState.runtimeIdle
        · simp [pm_system_suspend, h1, hguard, hg', hidle, pmSuspendEnter,
            pm_system_resume]
        · have hs : (pm_suspend_devices st.dev).1 = 0 := by
            by_contra hf
            exact habort ⟨h1, hidle, hf⟩
          simp [pm_system_suspend, h1, hguard, hg', hidle, hs,
            pmSuspendEnter, pm_system_resume]
  · intro env st
    by_cases h : st.postOpsDone <;> simp [pm_system_resume, h]

/-- Witness for the amended C4 theorem: a full non-aborted `STANDBY`
cycle ends with `post_ops_done` set. -/
theorem post_ops_pending_invariant_witness :
    Option.all (fun r => r.2.1.postOpsDone)
      (pm_system_suspend envStandby (pmInitSt []) 10) = true :=
  post_ops_pending_invariant.2.2.1 envStandby (pmInitSt []) 10 rfl
    (fun h => h.2.2 (by decide))

theorem pmDevicesLoop_devcall_only (target : PMDeviceState) :
    ∀ (is : List Nat) (st : DevSt) (e : PMEvent),
      e ∈ (pmDevicesLoop target is st).2.2 →
      ∃ i r a, e = PMEvent.devCall i target r a := by
  intro is
  induction is with
  | nil =>
    intro st e he
    simp [pmDevicesLoop] at he
  | cons i rest ih =>
    intro st e he
    by_cases hskip :
        (pm_device_is_busy (devAt st.devs i) ||
          pm_device_wakeup_is_enabled (devAt st.devs i)) = true
    · rw [pmDevicesLoop] at he
      simp only [hskip, if_pos] at he
      exact ih st e he
    · rw [pmDevicesLoop] at he
      simp only [hskip, Bool.false_eq_true, if_false] at he
      by_cases hben :
          (pm_device_state_set (devAt st.devs i) target).1 = -ENOSYS ∨
            (pm_device_state_set (devAt st.devs i) target).1 = -ENOTSUP ∨
            (pm_device_state_set (devAt st.devs i) target).1 = -EALREADY
      · simp only [hben, if_pos, List.mem_cons] at he
        rcases he with he | he
        · exact ⟨i, _, _, he⟩
        · exact ih _ e he
      · by_cases hneg :
            (pm_device_state_set (devAt st.devs i) target).1 < 0
        · simp only [hben, hneg, if_false, if_pos,
            List.mem_singleton] at he
          exact ⟨i, _, _, he⟩
        · simp only [hben, hneg, if_false, List.mem_cons] at he
          rcases he with he | he
          · exact ⟨i, _, _, he⟩
          · exact ih _ e he

/-- C1: when the policy picks a state deeper than `RUNTIME_IDLE` and
`pm_suspend_devices` fails, `pm_system_suspend` aborts the cycle: an
`ACTIVE` transition is invoked for every device suspended in this cycle
(the slots), in reverse suspension order; the current transition state
is set back to `ACTIVE`; the call returns `ACTIVE`; and no on-entry
broadcast occurs in that cycle. -/
theorem pm_system_suspend_device_abort (env : PMEnv) (st : EngineSt)
    (ticks : Int)
    (h1 : (env.policy ticks).state ≠ .active)
    (h2 : (env.policy ticks).state ≠ .runtimeIdle)
    (h3 : ticks = K_TICKS_FOREVER ∨
      (env.policy ticks).exit_latency_us ≤
        (env.policy ticks).min_residency_us)
    (h4 : (pm_suspend_devices st.dev).1 ≠ 0) :
    pm_system_suspend env st ticks =
      some (.active,
        ⟨false, { env.policy ticks with state := .active }, st.notifiers,
          (pm_resume_devices (pm_suspend_devices st.dev).2.1).1⟩,
        (if ticks ≠ K_TICKS_FOREVER then
          [PMEvent.publishState (env.policy ticks), .setPostOpsDone false,
            .setTimeoutExpiry
              (ticks -
                (env.usToTicksCeil
                  (env.policy ticks).exit_latency_us : Int)) true]
        else
          [PMEvent.publishState (env.policy ticks),
            .setPostOpsDone false]) ++
        (pm_suspend_devices st.dev).2.2 ++
        ((pm_resume_devices (pm_suspend_devices st.dev).2.1).2 ++
          [.publishState { env.policy ticks with state := .active }])) ∧
    callIndices (pm_resume_devices (pm_suspend_devices st.dev).2.1).2 =
      (pm_suspend_devices st.dev).2.1.slots.reverse ∧
    (∀ e, (e ∈ (pm_suspend_devices st.dev).2.2 ∨
        e ∈ (pm_resume_devices (pm_suspend_devices st.dev).2.1).2) →
      isEntryNotify e = false) := by
  have hguard : ¬ (ticks ≠ K_TICKS_FOREVER ∧
      ¬ (env.policy ticks).min_residency_us ≥
        (env.policy ticks).exit_latency_us) := by
    rcases h3 with h3 | h3
    · exact fun hc => hc.1 h3
    · exact fun hc => hc.2 h3
  refine ⟨?_, ?_, ?_⟩
  · by_cases hfo : ticks = K_TICKS_FOREVER
    · subst hfo
      simp [pm_system_suspend, _handle_device_abort, h1, h2, h4]
    · have hle : (env.policy ticks).exit_latency_us ≤
          (env.policy ticks).min_residency_us := by
        rcases h3 with h3 | h3
        · exact absurd h3 hfo
        · exact h3
      simp [pm_system_suspend, _handle_device_abort, h1, h2, h4, hfo,
        Nat.not_lt.mpr hle]
  · have h := pmResumeLoop_calls
      (pm_suspend_devices st.dev).2.1.slots.reverse
      (pm_suspend_devices st.dev).2.1
    simpa [pm_resume_devices] using h.1
  · intro e he
    rcases he with he | he
    · obtain ⟨i, r, a, he⟩ :=
        pmDevicesLoop_devcall_only .suspended _ _ e
          (by simpa [pm_suspend_devices, _pm_devices] using he)
      subst he
      rfl
    · obtain ⟨i, r, a, he⟩ :=
        (pmResumeLoop_calls
          (pm_suspend_devices st.dev).2.1.slots.reverse
          (pm_suspend_devices st.dev).2.1).2.2 e
          (by simpa [pm_resume_devices] using he)
      subst he
      rfl

/-- Witness for the C1 theorem at the scenario-S2 table: devices A, B, C;
C suspends, B fails with `-5`, the cycle aborts. -/
theorem pm_system_suspend_device_abort_witness :
    pm_system_suspend envStandby (pmInitSt devTableS2) 10 =
      some (.active,
        ⟨false, { envStandby.policy 10 with state := .active }, [],
          (pm_resume_devices
            (pm_suspend_devices (pmInitSt devTableS2).dev).2.1).1⟩,
        (if (10 : Int) ≠ K_TICKS_FOREVER then
          [PMEvent.publishState (envStandby.policy 10),
            .setPostOpsDone false,
            .setTimeoutExpiry
              ((10 : Int) -
                (envStandby.usToTicksCeil
                  (envStandby.policy 10).exit_latency_us : Int)) true]
        else
          [PMEvent.publishState (envStandby.policy 10),
            .setPostOpsDone false]) ++
        (pm_suspend_devices (pmInitSt devTableS2).dev).2.2 ++
        ((pm_resume_devices
            (pm_suspend_devices (pmInitSt devTableS2).dev).2.1).2 ++
          [.publishState { envStandby.policy 10 with state := .active }])) ∧
    callIndices (pm_resume_devices
        (pm_suspend_devices (pmInitSt devTableS2).dev).2.1).2 =
      (pm_suspend_devices (pmInitSt devTableS2).dev).2.1.slots.reverse ∧
    (∀ e, (e ∈ (pm_suspend_devices (pmInitSt devTableS2).dev).2.2 ∨
        e ∈ (pm_resume_devices
          (pm_suspend_devices (pmInitSt devTableS2).dev).2.1).2) →
      isEntryNotify e = false) :=
  pm_system_suspend_device_abort envStandby (pmInitSt devTableS2) 10
    (by decide) (by decide) (Or.inr (by decide)) (by decide)
